import Mathlib

/- Verification of the property leasing system against its specification.
   The definitions below are a shallow embedding of src/leasing.py (the
   SQLite-backed variant) and src/leasing_Wdb.py (the in-memory variant).
   Python exceptions raised by the datetime constructor are embedded as the
   none case of Option. -/

namespace Leasing

/-- Calendar date as handled by the Python datetime module: year, month, day. -/
structure Date where
  year : Int
  month : Int
  day : Int
deriving DecidableEq, Repr

/-- Gregorian leap year rule applied by the Python datetime module. -/
def isLeapYear (y : Int) : Bool :=
  y % 4 == 0 && (y % 100 != 0 || y % 400 == 0)

/-- Number of days of a month, as enforced by the Python datetime constructor. -/
def daysInMonth (y m : Int) : Int :=
  if m = 2 then (if isLeapYear y then 29 else 28)
  else if m = 4 ∨ m = 6 ∨ m = 9 ∨ m = 11 then 30
  else 31

/-- Validity of a date per the Python datetime constructor, including the
    year range 1 to 9999 that the constructor enforces. -/
def Date.valid (d : Date) : Prop :=
  1 ≤ d.year ∧ d.year ≤ 9999 ∧ 1 ≤ d.month ∧ d.month ≤ 12 ∧
    1 ≤ d.day ∧ d.day ≤ daysInMonth d.year d.month

instance (d : Date) : Decidable d.valid := by
  unfold Date.valid; infer_instance

/-- Models the Python datetime constructor: none embeds a raised ValueError. -/
def mkDate (y m d : Int) : Option Date :=
  if Date.valid ⟨y, m, d⟩ then some ⟨y, m, d⟩ else none

/-- Lexicographic strict order on dates; Python compares date objects this way. -/
def Date.ltb (a b : Date) : Bool :=
  if a.year < b.year then true
  else if b.year < a.year then false
  else if a.month < b.month then true
  else if b.month < a.month then false
  else decide (a.day < b.day)

/-- Payment frequency strings accepted by the rent flow. -/
inductive Frequency
  | monthly
  | yearly
deriving DecidableEq, Repr, BEq

/-- Rent period strings accepted by the add-property flow. -/
inductive RentPeriod
  | monthly
  | yearly
deriving DecidableEq, Repr, BEq

/-- Payment methods of Rental.PAYMENT_METHODS in src/leasing.py. -/
inductive PaymentMethod
  | cash
  | credit_card
  | bank_transfer
  | check
deriving DecidableEq, Repr, BEq

/-- Rental status values stored in the rentals relation. -/
inductive Status
  | active
  | ended
deriving DecidableEq, Repr, BEq

/-- Errors of the error taxonomy of the specification; the source reports the
    corresponding conditions by aborting the operation with a message. -/
inductive LeasingError
  | validationError
  | conflictError
  | notFoundError
deriving DecidableEq, Repr, BEq

/-- calculate_next_due_date of src/leasing.py lines 435 to 451: for monthly,
    increment the month with a year wrap and keep the day unchanged, with no
    clamping; for yearly, increment the year keeping month and day. -/
def calculate_next_due_date (start : Date) (freq : Frequency) : Option Date :=
  match freq with
  | Frequency.monthly =>
      if start.month + 1 > 12 then mkDate (start.year + 1) 1 start.day
      else mkDate start.year (start.month + 1) start.day
  | Frequency.yearly => mkDate (start.year + 1) start.month start.day

/-- next_due_date of src/leasing.py lines 454 to 462, used by record_payment.
    The function tests the frequency string against monthly and annual, so the
    yearly frequency matches neither branch and the Python function returns
    None, embedded here as some none; the outer none embeds a ValueError. -/
def next_due_date (paid : Date) (freq : Frequency) : Option (Option Date) :=
  match freq with
  | Frequency.monthly =>
      Option.map some
        (if paid.month + 1 > 12 then mkDate (paid.year + 1) 1 paid.day
         else mkDate paid.year (paid.month + 1) paid.day)
  | Frequency.yearly => some none

/-- Rental.calculate_next_due of src/leasing_Wdb.py lines 78 to 88: same
    monthly rollover but with the day clamped to at most 28. -/
def calculate_next_due (start : Date) (freq : Frequency) : Option Date :=
  match freq with
  | Frequency.monthly =>
      if start.month + 1 > 12 then mkDate (start.year + 1) 1 (min start.day 28)
      else mkDate start.year (start.month + 1) (min start.day 28)
  | Frequency.yearly => mkDate (start.year + 1) start.month start.day

/-- Rental duration in months of src/leasing.py lines 861 to 863: month
    difference plus one when the end day of month exceeds the start day. -/
def duration_months (s e : Date) : Int :=
  if e.day > s.day then (e.year - s.year) * 12 + (e.month - s.month) + 1
  else (e.year - s.year) * 12 + (e.month - s.month)

/-- Duration variant of src/leasing_Wdb.py line 218: plain month difference,
    without the adjustment for a partial trailing month. -/
def duration_months_Wdb (s e : Date) : Int :=
  (e.year - s.year) * 12 + (e.month - s.month)

/-- Total amount of src/leasing.py lines 869 to 873 and src/leasing_Wdb.py
    line 219: rent times months for a monthly period, rent divided by twelve
    times months for a yearly period. -/
def total_amount (rent : ℚ) (period : RentPeriod) (dur : Int) : ℚ :=
  if period = RentPeriod.monthly then rent * (dur : ℚ)
  else (rent / 12) * (dur : ℚ)

/-- Calendar successor of a date; used only to state that the duration is
    monotone while the end date advances day by day. -/
def nextDay (d : Date) : Date :=
  if d.day < daysInMonth d.year d.month then ⟨d.year, d.month, d.day + 1⟩
  else if d.month < 12 then ⟨d.year, d.month + 1, 1⟩
  else ⟨d.year + 1, 1, 1⟩

/-- Property row: the fields of the properties relation that the lifecycle
    rules read or write; id, availability flag, rent amount and rent period. -/
structure PropertyR where
  pid : Int
  available : Bool
  rent_amount : ℚ
  rent_period : RentPeriod
deriving DecidableEq, Repr

/-- Rental row of the rentals relation of src/leasing.py. -/
structure RentalR where
  client_id : Int
  property_id : Int
  start_date : Date
  end_date : Date
  duration_months : Int
  total_amount : ℚ
  payment_method : PaymentMethod
  payment_frequency : Frequency
  next_due_date : Date
  status : Status
deriving DecidableEq, Repr

/-- Payment row of the payments relation of src/leasing.py; property_id is
    nullable and next_due stores the Python None when next_due_date returned
    None. -/
structure PaymentR where
  client_id : Int
  property_id : Option Int
  amount : ℚ
  paid_on : Date
  frequency : Frequency
  next_due : Option Date
deriving DecidableEq, Repr

/-- Persistent state: the four relations plus the autoincrement counters that
    SQLite keeps for the properties and clients tables. -/
structure State where
  nextPropId : Int
  properties : List PropertyR
  rentals : List RentalR
  payments : List PaymentR
  nextClientId : Int
  clients : List Int
deriving DecidableEq, Repr

/-- Empty database right after table creation; autoincrement ids start at 1. -/
def initState : State :=
  ⟨1, [], [], [], 1, []⟩

/-- add_property_interactive of src/leasing.py lines 623 to 703, reduced to
    the persistent effect: a fresh row with the availability flag set. -/
def addProperty (st : State) (rent : ℚ) (period : RentPeriod) : State :=
  { st with
      properties := st.properties ++ [⟨st.nextPropId, true, rent, period⟩],
      nextPropId := st.nextPropId + 1 }

/-- rent_property_interactive of src/leasing.py lines 766 to 913. The
    selection list only offers rows with the availability flag set, so an
    unavailable property is rejected before anything is written; the client
    row is saved before the date checks, exactly as in the source; every
    later failure aborts with no rental row and no availability change. The
    none case of calculate_next_due_date embeds the uncaught ValueError that
    stops the Python flow before any rental write. -/
def rentProperty (st : State) (propId : Int) (startd endd : Date)
    (method : PaymentMethod) (freq : Frequency) : State × Option LeasingError :=
  match st.properties.find? (fun q => q.pid == propId) with
  | none => (st, some LeasingError.notFoundError)
  | some p =>
    if p.available = false then (st, some LeasingError.validationError)
    else
      let st1 : State :=
        { st with
            clients := st.clients ++ [st.nextClientId],
            nextClientId := st.nextClientId + 1 }
      if (Date.ltb startd endd) = false then (st1, some LeasingError.validationError)
      else if duration_months startd endd ≤ 0 then (st1, some LeasingError.validationError)
      else
        match calculate_next_due_date startd freq with
        | none => (st1, some LeasingError.validationError)
        | some nd =>
          ({ st1 with
              rentals := st1.rentals ++
                [{ client_id := st.nextClientId, property_id := propId,
                   start_date := startd, end_date := endd,
                   duration_months := duration_months startd endd,
                   total_amount := total_amount p.rent_amount p.rent_period
                     (duration_months startd endd),
                   payment_method := method, payment_frequency := freq,
                   next_due_date := nd, status := Status.active }],
              properties := st1.properties.map
                (fun q => if q.pid == propId then { q with available := false } else q) },
           none)

/-- delete_property_interactive of src/leasing.py lines 569 to 620: reject a
    missing row, reject while an active rental references the property, else
    delete the property row and every payment row referencing it. -/
def deleteProperty (st : State) (propId : Int) : State × Option LeasingError :=
  if st.properties.any (fun p => p.pid == propId) = false then
    (st, some LeasingError.notFoundError)
  else if st.rentals.any
      (fun r => r.property_id == propId && r.status == Status.active) = true then
    (st, some LeasingError.conflictError)
  else
    ({ st with
        properties := st.properties.filter (fun p => p.pid != propId),
        payments := st.payments.filter (fun q => q.property_id != some propId) },
     none)

/-- record_payment of src/leasing.py lines 465 to 471: compute the next due
    date and append a payment row; a ValueError from next_due_date aborts the
    insert. -/
def recordPayment (st : State) (clientId : Int) (propId : Option Int) (amount : ℚ)
    (paidOn : Date) (freq : Frequency) : State × Option LeasingError :=
  match next_due_date paidOn freq with
  | none => (st, some LeasingError.validationError)
  | some nd =>
    ({ st with
        payments := st.payments ++
          [{ client_id := clientId, property_id := propId, amount := amount,
             paid_on := paidOn, frequency := freq, next_due := nd }] },
     none)

/-- States reachable from the fresh database through the operations the
    program exposes; there is no operation ending a rental or resetting the
    availability flag. -/
inductive Reachable : State → Prop
  | init : Reachable initState
  | add : ∀ (s : State) (rent : ℚ) (period : RentPeriod),
      Reachable s → Reachable (addProperty s rent period)
  | rent : ∀ (s : State) (propId : Int) (sd ed : Date)
      (m : PaymentMethod) (f : Frequency),
      Reachable s → Reachable (rentProperty s propId sd ed m f).1
  | del : ∀ (s : State) (propId : Int),
      Reachable s → Reachable (deleteProperty s propId).1
  | pay : ∀ (s : State) (cid : Int) (pid : Option Int) (amount : ℚ)
      (paidOn : Date) (f : Frequency),
      Reachable s → Reachable (recordPayment s cid pid amount paidOn f).1

/-- Inductive invariant: ids are below the autoincrement counter and every
    property referenced by a rental row has its availability flag cleared. -/
def Inv (s : State) : Prop :=
  (∀ p ∈ s.properties, p.pid < s.nextPropId) ∧
  (∀ r ∈ s.rentals, r.property_id < s.nextPropId) ∧
  (∀ r ∈ s.rentals, ∀ p ∈ s.properties, p.pid = r.property_id → p.available = false)

theorem daysInMonth_ge_28 (y m : Int) : 28 ≤ daysInMonth y m := by
  unfold daysInMonth
  split_ifs <;> omega

theorem daysInMonth_feb_le_29 (y : Int) : daysInMonth y 2 ≤ 29 := by
  unfold daysInMonth
  split_ifs <;> omega

theorem daysInMonth_ne_feb (y y' m : Int) (h : m ≠ 2) :
    daysInMonth y' m = daysInMonth y m := by
  unfold daysInMonth
  rw [if_neg h, if_neg h]

theorem valid_mk (y m day : Int) :
    Date.valid ⟨y, m, day⟩ ↔
      (1 ≤ y ∧ y ≤ 9999 ∧ 1 ≤ m ∧ m ≤ 12 ∧ 1 ≤ day ∧ day ≤ daysInMonth y m) :=
  Iff.rfl

theorem mkDate_some (y m day : Int) (h1 : 1 ≤ y) (h2 : y ≤ 9999) (h3 : 1 ≤ m)
    (h4 : m ≤ 12) (h5 : 1 ≤ day) (h6 : day ≤ 28) :
    mkDate y m day = some ⟨y, m, day⟩ := by
  unfold mkDate
  rw [if_pos]
  exact (valid_mk y m day).mpr
    ⟨h1, h2, h3, h4, h5, le_trans h6 (daysInMonth_ge_28 y m)⟩

/-- C1: duration_months of the rent flow equals the month difference formula
    of the specification, incremented by one when the end day of month exceeds
    the start day; in particular it is 3 for 2024-01-15 to 2024-03-20. -/
theorem C1_duration_months_formula :
    (∀ s e : Date, duration_months s e =
      (e.year - s.year) * 12 + (e.month - s.month) +
        (if e.day > s.day then 1 else 0)) ∧
    duration_months ⟨2024, 1, 15⟩ ⟨2024, 3, 20⟩ = 3 := by
  constructor
  · intro s e
    unfold duration_months
    split_ifs <;> omega
  · decide

/-- C2: the claim demands a valid date from the monthly rollover for every
    valid start date, in particular for 2024-01-31; calculate_next_due_date
    and next_due_date of src/leasing.py keep the day unchanged and raise a
    ValueError there (embedded as none), while the clamped variant of
    src/leasing_Wdb.py yields the valid date 2024-02-28. -/
theorem C2_monthly_rollover_overflow :
    calculate_next_due_date ⟨2024, 1, 31⟩ Frequency.monthly = none ∧
    next_due_date ⟨2024, 1, 31⟩ Frequency.monthly = none ∧
    calculate_next_due ⟨2024, 1, 31⟩ Frequency.monthly = some ⟨2024, 2, 28⟩ := by
  refine ⟨by decide, by decide, by decide⟩

/-- C6: total_amount is the rent times the duration for a monthly rent period
    and one twelfth of the rent times the duration for a yearly one; a yearly
    rent of 12000 over 3 months gives 3000. -/
theorem C6_total_amount_formula :
    (∀ (rent : ℚ) (dur : Int),
        total_amount rent RentPeriod.monthly dur = rent * (dur : ℚ)) ∧
    (∀ (rent : ℚ) (dur : Int),
        total_amount rent RentPeriod.yearly dur = (rent / 12) * (dur : ℚ)) ∧
    total_amount 12000 RentPeriod.yearly 3 = 3000 := by
  refine ⟨fun rent dur => rfl, fun rent dur => ?_, ?_⟩
  · unfold total_amount
    rw [if_neg (by decide)]
  · unfold total_amount
    rw [if_neg (by decide)]
    norm_num

/-- C7 counterexample: composing the monthly rollover twice from 2024-12-31
    does not yield the date two calendar months later; the second application
    attempts February 31 and fails (embedded as none). -/
theorem C7_counterexample :
    (calculate_next_due_date ⟨2024, 12, 31⟩ Frequency.monthly).bind
      (fun e => calculate_next_due_date e Frequency.monthly) = none := by
  decide

/-- C9 counterexample: the yearly rollover applied to the valid date
    2024-02-29 does not return the date one year later; it attempts
    2025-02-29, which does not exist, and fails (embedded as none). -/
theorem C9_counterexample :
    Date.valid ⟨2024, 2, 29⟩ ∧
    calculate_next_due_date ⟨2024, 2, 29⟩ Frequency.yearly = none := by
  refine ⟨by decide, by decide⟩

/-- C9 amended: for every valid date that is not February 29 and whose
    successor year stays in range, the yearly rollover returns the date one
    year later with month and day preserved. -/
theorem C9_yearly_adds_one_year (d : Date) (hv : d.valid)
    (hnl : ¬(d.month = 2 ∧ d.day = 29)) (hy : d.year + 1 ≤ 9999) :
    calculate_next_due_date d Frequency.yearly = some ⟨d.year + 1, d.month, d.day⟩ := by
  obtain ⟨h1, h2, h3, h4, h5, h6⟩ := hv
  show mkDate (d.year + 1) d.month d.day = _
  unfold mkDate
  rw [if_pos]
  refine (valid_mk _ _ _).mpr ⟨by omega, hy, h3, h4, h5, ?_⟩
  by_cases hm : d.month = 2
  · have h29 : daysInMonth d.year 2 ≤ 29 := daysInMonth_feb_le_29 d.year
    have h28 : (28 : Int) ≤ daysInMonth (d.year + 1) 2 := daysInMonth_ge_28 _ _
    have hd29 : d.day ≠ 29 := fun h => hnl ⟨hm, h⟩
    rw [hm] at h6 ⊢
    omega
  · rw [daysInMonth_ne_feb d.year (d.year + 1) d.month hm]
    exact h6

/-- C9 witness: the amended yearly rollover at the concrete date 2024-03-15
    yields 2025-03-15. -/
theorem C9_yearly_adds_one_year_witness :
    calculate_next_due_date ⟨2024, 3, 15⟩ Frequency.yearly = some ⟨2025, 3, 15⟩ :=
  C9_yearly_adds_one_year ⟨2024, 3, 15⟩ (by decide) (by decide) (by decide)

theorem cnd_monthly_low (d : Date) (h1 : 1 ≤ d.year) (h2 : d.year ≤ 9999)
    (h3 : 1 ≤ d.month) (hm : d.month ≤ 11) (h5 : 1 ≤ d.day) (h6 : d.day ≤ 28) :
    calculate_next_due_date d Frequency.monthly = some ⟨d.year, d.month + 1, d.day⟩ := by
  show (if d.month + 1 > 12 then mkDate (d.year + 1) 1 d.day
        else mkDate d.year (d.month + 1) d.day) = _
  rw [if_neg (by omega)]
  exact mkDate_some d.year (d.month + 1) d.day h1 h2 (by omega) (by omega) h5 h6

theorem cnd_monthly_high (d : Date) (h1 : 1 ≤ d.year) (h2 : d.year + 1 ≤ 9999)
    (hm : 12 ≤ d.month) (h5 : 1 ≤ d.day) (h6 : d.day ≤ 28) :
    calculate_next_due_date d Frequency.monthly = some ⟨d.year + 1, 1, d.day⟩ := by
  show (if d.month + 1 > 12 then mkDate (d.year + 1) 1 d.day
        else mkDate d.year (d.month + 1) d.day) = _
  rw [if_pos (by omega)]
  exact mkDate_some (d.year + 1) 1 d.day (by omega) h2 (by omega) (by omega) h5 h6

/-- C7 amended: for every valid date whose day of month is at most 28 and
    whose successor year stays in range, composing the monthly rollover twice
    advances exactly two calendar months; for a day of month of 29 to 31 the
    unclamped rollover of src/leasing.py can fail instead, as the
    counterexample shows. -/
theorem C7_monthly_compose_two_months (d : Date) (hv : d.valid)
    (h28 : d.day ≤ 28) (hy : d.year + 1 ≤ 9999) :
    (calculate_next_due_date d Frequency.monthly).bind
        (fun e => calculate_next_due_date e Frequency.monthly) =
      some (if 11 ≤ d.month then ⟨d.year + 1, d.month - 10, d.day⟩
            else ⟨d.year, d.month + 2, d.day⟩) := by
  obtain ⟨h1, h2, h3, h4, h5, h6⟩ := hv
  by_cases hm10 : d.month ≤ 10
  · rw [if_neg (by omega)]
    rw [cnd_monthly_low d h1 h2 h3 (by omega) h5 h28]
    show calculate_next_due_date ⟨d.year, d.month + 1, d.day⟩ Frequency.monthly = _
    rw [cnd_monthly_low ⟨d.year, d.month + 1, d.day⟩ h1 h2
      (show (1 : Int) ≤ d.month + 1 by omega) (show d.month + 1 ≤ 11 by omega) h5 h28]
    refine congrArg some ?_
    show Date.mk d.year (d.month + 1 + 1) d.day = ⟨d.year, d.month + 2, d.day⟩
    rw [Date.mk.injEq]
    exact ⟨rfl, by omega, rfl⟩
  · by_cases hm11 : d.month ≤ 11
    · rw [if_pos (by omega)]
      rw [cnd_monthly_low d h1 h2 h3 (by omega) h5 h28]
      show calculate_next_due_date ⟨d.year, d.month + 1, d.day⟩ Frequency.monthly = _
      rw [cnd_monthly_high ⟨d.year, d.month + 1, d.day⟩ h1 hy
        (show (12 : Int) ≤ d.month + 1 by omega) h5 h28]
      refine congrArg some ?_
      show Date.mk (d.year + 1) 1 d.day = ⟨d.year + 1, d.month - 10, d.day⟩
      rw [Date.mk.injEq]
      exact ⟨rfl, by omega, rfl⟩
    · rw [if_pos (by omega)]
      rw [cnd_monthly_high d h1 hy (by omega) h5 h28]
      show calculate_next_due_date ⟨d.year + 1, 1, d.day⟩ Frequency.monthly = _
      rw [cnd_monthly_low ⟨d.year + 1, 1, d.day⟩
        (show (1 : Int) ≤ d.year + 1 by omega) hy
        (show (1 : Int) ≤ 1 by omega) (show (1 : Int) ≤ 11 by omega) h5 h28]
      refine congrArg some ?_
      show Date.mk (d.year + 1) (1 + 1) d.day = ⟨d.year + 1, d.month - 10, d.day⟩
      rw [Date.mk.injEq]
      exact ⟨rfl, by omega, rfl⟩

/-- C7 witness: from 2024-11-15 two monthly rollovers reach 2025-01-15, the
    date two calendar months later across the year boundary. -/
theorem C7_monthly_compose_two_months_witness :
    (calculate_next_due_date ⟨2024, 11, 15⟩ Frequency.monthly).bind
        (fun e => calculate_next_due_date e Frequency.monthly) =
      some ⟨2025, 1, 15⟩ := by
  simpa using C7_monthly_compose_two_months ⟨2024, 11, 15⟩ (by decide) (by decide) (by decide)

/-- C8: the rent flow duration is zero on equal dates, and is monotone while
    the end date advances to its calendar successor, for every valid end
    date. -/
theorem C8_duration_zero_and_monotone :
    (∀ d : Date, duration_months d d = 0) ∧
    (∀ s e : Date, e.valid →
        duration_months s e ≤ duration_months s (nextDay e)) := by
  constructor
  · intro d
    unfold duration_months
    rw [if_neg (lt_irrefl d.day)]
    omega
  · intro s e hv
    obtain ⟨h1, h2, h3, h4, h5, h6⟩ := hv
    unfold nextDay
    split_ifs with hd hm
    · simp only [duration_months]
      split_ifs <;> omega
    · simp only [duration_months]
      split_ifs <;> omega
    · simp only [duration_months]
      split_ifs <;> omega

/-- C8 witness: monotonicity instantiated at the concrete dates 2024-01-15
    and 2024-03-20. -/
theorem C8_duration_zero_and_monotone_witness :
    duration_months ⟨2024, 1, 15⟩ ⟨2024, 3, 20⟩ ≤
      duration_months ⟨2024, 1, 15⟩ (nextDay ⟨2024, 3, 20⟩) :=
  C8_duration_zero_and_monotone.2 ⟨2024, 1, 15⟩ ⟨2024, 3, 20⟩ (by decide)

theorem find_map_flip (l : List PropertyR) (propId : Int) (p : PropertyR)
    (h : l.find? (fun q : PropertyR => q.pid == propId) = some p) :
    (l.map (fun q : PropertyR =>
        if q.pid == propId then { q with available := false } else q)).find?
      (fun q : PropertyR => q.pid == propId) = some { p with available := false } := by
  induction l with
  | nil => simp at h
  | cons a t ih =>
    by_cases ha : (a.pid == propId) = true
    · rw [@List.find?_cons_of_pos _ (fun q : PropertyR => q.pid == propId) a t ha] at h
      injection h with h
      subst h
      rw [List.map_cons]
      rw [if_pos ha]
      exact @List.find?_cons_of_pos _ (fun q : PropertyR => q.pid == propId) _ _ ha
    · rw [@List.find?_cons_of_neg _ (fun q : PropertyR => q.pid == propId) a t
        (by simpa using ha)] at h
      rw [List.map_cons]
      rw [if_neg ha]
      rw [@List.find?_cons_of_neg _ (fun q : PropertyR => q.pid == propId) a _
        (by simpa using ha)]
      exact ih h

theorem rent_unavailable (st : State) (propId : Int) (sd ed : Date)
    (pm : PaymentMethod) (pf : Frequency) (p : PropertyR)
    (hf : st.properties.find? (fun q => q.pid == propId) = some p)
    (hav : p.available = false) :
    rentProperty st propId sd ed pm pf = (st, some LeasingError.validationError) := by
  simp [rentProperty, hf, hav]

/-- C3: renting a property found with its availability flag set records an
    active rental referencing it, clears the flag on every row with that id,
    and a second rent attempt on the same id is rejected with the validation
    error of the spec taxonomy and returns the state unchanged. -/
theorem C3_rent_flips_availability_and_rejects_again (st : State) (propId : Int)
    (sd ed : Date) (pm : PaymentMethod) (pf : Frequency) (p : PropertyR)
    (hf : st.properties.find? (fun q => q.pid == propId) = some p)
    (hsucc : (rentProperty st propId sd ed pm pf).2 = none) :
    (∀ q ∈ (rentProperty st propId sd ed pm pf).1.properties,
        q.pid = propId → q.available = false) ∧
    (∃ r ∈ (rentProperty st propId sd ed pm pf).1.rentals,
        r.property_id = propId ∧ r.status = Status.active) ∧
    (∀ (sd2 ed2 : Date) (pm2 : PaymentMethod) (pf2 : Frequency),
        rentProperty (rentProperty st propId sd ed pm pf).1 propId sd2 ed2 pm2 pf2 =
          ((rentProperty st propId sd ed pm pf).1, some LeasingError.validationError)) := by
  by_cases hav : p.available = false
  · simp [rentProperty, hf, hav] at hsucc
  · by_cases hlt : Date.ltb sd ed = false
    · simp [rentProperty, hf, hav, hlt] at hsucc
    · by_cases hdur : duration_months sd ed ≤ 0
      · simp [rentProperty, hf, hav, hlt, hdur] at hsucc
      · rcases hnd : calculate_next_due_date sd pf with _ | nd
        · simp [rentProperty, hf, hav, hlt, hdur, hnd] at hsucc
        · have hres : rentProperty st propId sd ed pm pf =
              ({ st with
                  nextClientId := st.nextClientId + 1,
                  clients := st.clients ++ [st.nextClientId],
                  rentals := st.rentals ++
                    [⟨st.nextClientId, propId, sd, ed, duration_months sd ed,
                      total_amount p.rent_amount p.rent_period (duration_months sd ed),
                      pm, pf, nd, Status.active⟩],
                  properties := st.properties.map
                    (fun q => if q.pid == propId then { q with available := false } else q) },
               none) := by
            simp [rentProperty, hf, hav, hlt, hdur, hnd]
          refine ⟨?_, ?_, ?_⟩
          · intro q hq hqid
            rw [hres] at hq
            rcases List.mem_map.mp hq with ⟨q0, hq0, hq0eq⟩
            subst hq0eq
            by_cases h0 : (q0.pid == propId) = true
            · rw [if_pos h0]
            · rw [if_neg h0] at hqid ⊢
              exact absurd (beq_iff_eq.mpr hqid) h0
          · rw [hres]
            exact ⟨_, List.mem_append_right _ (List.mem_singleton_self _), rfl, rfl⟩
          · intro sd2 ed2 pm2 pf2
            have hfind3 : (st.properties.map
                (fun q => if q.pid == propId then { q with available := false } else q)).find?
                (fun q => q.pid == propId) = some { p with available := false } :=
              find_map_flip st.properties propId p hf
            refine rent_unavailable _ propId _ _ _ _ { p with available := false } ?_ rfl
            rw [hres]
            exact hfind3

/-- C3 witness: after renting property 1 of a one-property state, a second
    rent attempt on the same id is rejected with a validation error and the
    state is returned unchanged. -/
theorem C3_rent_flips_availability_and_rejects_again_witness :
    rentProperty
        (rentProperty ⟨2, [⟨1, true, 100, RentPeriod.monthly⟩], [], [], 1, []⟩ 1
          ⟨2024, 1, 15⟩ ⟨2024, 3, 20⟩ PaymentMethod.cash Frequency.monthly).1 1
        ⟨2024, 4, 1⟩ ⟨2024, 6, 2⟩ PaymentMethod.cash Frequency.monthly =
      ((rentProperty ⟨2, [⟨1, true, 100, RentPeriod.monthly⟩], [], [], 1, []⟩ 1
          ⟨2024, 1, 15⟩ ⟨2024, 3, 20⟩ PaymentMethod.cash Frequency.monthly).1,
        some LeasingError.validationError) :=
  (C3_rent_flips_availability_and_rejects_again
      ⟨2, [⟨1, true, 100, RentPeriod.monthly⟩], [], [], 1, []⟩ 1
      ⟨2024, 1, 15⟩ ⟨2024, 3, 20⟩ PaymentMethod.cash Frequency.monthly
      ⟨1, true, 100, RentPeriod.monthly⟩ (by decide) (by decide)).2.2
    ⟨2024, 4, 1⟩ ⟨2024, 6, 2⟩ PaymentMethod.cash Frequency.monthly

/-- C4: with the property row present, deleting it while an active rental
    references it fails with the conflict error and returns the state
    unchanged; with no active rental referencing it, the call succeeds,
    removes every property row with that id and every payment row
    referencing it, and leaves the rentals untouched. -/
theorem C4_delete_property_guarded (st : State) (propId : Int)
    (hex : st.properties.any (fun p => p.pid == propId) = true) :
    (st.rentals.any (fun r => r.property_id == propId && r.status == Status.active) = true →
      deleteProperty st propId = (st, some LeasingError.conflictError)) ∧
    (st.rentals.any (fun r => r.property_id == propId && r.status == Status.active) = false →
      (deleteProperty st propId).2 = none ∧
      (∀ p ∈ (deleteProperty st propId).1.properties, p.pid ≠ propId) ∧
      (∀ q ∈ (deleteProperty st propId).1.payments, q.property_id ≠ some propId) ∧
      (deleteProperty st propId).1.rentals = st.rentals) := by
  constructor
  · intro hact
    unfold deleteProperty
    rw [if_neg (by simp [hex]), if_pos hact]
  · intro hno
    unfold deleteProperty
    rw [if_neg (by simp [hex]), if_neg (by simp [hno])]
    refine ⟨rfl, ?_, ?_, rfl⟩
    · intro p hp
      have := (List.mem_filter.mp hp).2
      simpa using this
    · intro q hq
      have := (List.mem_filter.mp hq).2
      simpa using this

/-- C4 witness: deleting property 1 of a state holding that property, one
    payment referencing it and no rental succeeds. -/
theorem C4_delete_property_guarded_witness :
    (deleteProperty ⟨2, [⟨1, true, 100, RentPeriod.monthly⟩], [],
        [⟨1, some 1, 50, ⟨2024, 1, 15⟩, Frequency.monthly, some ⟨2024, 2, 15⟩⟩], 1, []⟩ 1).2
      = none :=
  ((C4_delete_property_guarded _ 1 (by decide)).2 (by decide)).1

/-- C5: whenever the rent flow fails at any of its checks, no rental row is
    recorded and the property rows, availability flags included, are exactly
    those of the initial state; only the client row saved before the date
    checks may have been added, as in the source. -/
theorem C5_rent_failure_leaves_state (st : State) (propId : Int) (sd ed : Date)
    (pm : PaymentMethod) (pf : Frequency) (e : LeasingError)
    (herr : (rentProperty st propId sd ed pm pf).2 = some e) :
    (rentProperty st propId sd ed pm pf).1.rentals = st.rentals ∧
    (rentProperty st propId sd ed pm pf).1.properties = st.properties := by
  rcases hf : st.properties.find? (fun q => q.pid == propId) with _ | p
  · simp [rentProperty, hf]
  · by_cases hav : p.available = false
    · simp [rentProperty, hf, hav]
    · by_cases hlt : Date.ltb sd ed = false
      · simp [rentProperty, hf, hav, hlt]
      · by_cases hdur : duration_months sd ed ≤ 0
        · simp [rentProperty, hf, hav, hlt, hdur]
        · rcases hnd : calculate_next_due_date sd pf with _ | nd
          · simp [rentProperty, hf, hav, hlt, hdur, hnd]
          · simp [rentProperty, hf, hav, hlt, hdur, hnd] at herr

/-- C5 witness: renting a property id absent from the fresh database fails
    and leaves the rentals and properties unchanged. -/
theorem C5_rent_failure_leaves_state_witness :
    (rentProperty initState 1 ⟨2024, 1, 15⟩ ⟨2024, 3, 20⟩
        PaymentMethod.cash Frequency.monthly).1.rentals = initState.rentals ∧
    (rentProperty initState 1 ⟨2024, 1, 15⟩ ⟨2024, 3, 20⟩
        PaymentMethod.cash Frequency.monthly).1.properties = initState.properties :=
  C5_rent_failure_leaves_state initState 1 ⟨2024, 1, 15⟩ ⟨2024, 3, 20⟩
    PaymentMethod.cash Frequency.monthly LeasingError.notFoundError (by decide)

theorem reachable_inv (s : State) (h : Reachable s) : Inv s := by
  induction h with
  | init =>
    unfold Inv
    refine ⟨?_, ?_, ?_⟩ <;> simp [initState]
  | add s rent period hr ih =>
    obtain ⟨i1, i2, i3⟩ := ih
    unfold Inv addProperty
    refine ⟨?_, ?_, ?_⟩
    · intro p hp
      simp only [List.mem_append, List.mem_singleton] at hp
      rcases hp with hp | rfl
      · have := i1 p hp
        simp only
        omega
      · simp only
        omega
    · intro r hr2
      simp only at hr2 ⊢
      have := i2 r hr2
      omega
    · intro r hr2 p hp hpid
      simp only [List.mem_append, List.mem_singleton] at hr2 hp
      rcases hp with hp | rfl
      · exact i3 r hr2 p hp hpid
      · have := i2 r hr2
        simp only at hpid
        exfalso
        omega
  | rent s propId sd ed m f hr ih =>
    obtain ⟨i1, i2, i3⟩ := ih
    rcases hf : s.properties.find? (fun q => q.pid == propId) with _ | p
    · have h1 : (rentProperty s propId sd ed m f).1 = s := by
        simp [rentProperty, hf]
      rw [h1]
      exact ⟨i1, i2, i3⟩
    · have hpmem : p ∈ s.properties := List.mem_of_find?_eq_some hf
      have hppid : p.pid = propId := by
        have := List.find?_some hf
        exact beq_iff_eq.mp this
      by_cases hav : p.available = false
      · have h1 : (rentProperty s propId sd ed m f).1 = s := by
          simp [rentProperty, hf, hav]
        rw [h1]
        exact ⟨i1, i2, i3⟩
      · by_cases hlt : Date.ltb sd ed = false
        · have h1 : (rentProperty s propId sd ed m f).1 =
              { s with nextClientId := s.nextClientId + 1,
                       clients := s.clients ++ [s.nextClientId] } := by
            simp [rentProperty, hf, hav, hlt]
          rw [h1]
          exact ⟨i1, i2, i3⟩
        · by_cases hdur : duration_months sd ed ≤ 0
          · have h1 : (rentProperty s propId sd ed m f).1 =
                { s with nextClientId := s.nextClientId + 1,
                         clients := s.clients ++ [s.nextClientId] } := by
              simp [rentProperty, hf, hav, hlt, hdur]
            rw [h1]
            exact ⟨i1, i2, i3⟩
          · rcases hnd : calculate_next_due_date sd f with _ | nd
            · have h1 : (rentProperty s propId sd ed m f).1 =
                  { s with nextClientId := s.nextClientId + 1,
                           clients := s.clients ++ [s.nextClientId] } := by
                simp [rentProperty, hf, hav, hlt, hdur, hnd]
              rw [h1]
              exact ⟨i1, i2, i3⟩
            · have h1 : (rentProperty s propId sd ed m f).1 =
                  { s with
                      nextClientId := s.nextClientId + 1,
                      clients := s.clients ++ [s.nextClientId],
                      rentals := s.rentals ++
                        [⟨s.nextClientId, propId, sd, ed, duration_months sd ed,
                          total_amount p.rent_amount p.rent_period (duration_months sd ed),
                          m, f, nd, Status.active⟩],
                      properties := s.properties.map
                        (fun q =>
                          if q.pid == propId then { q with available := false } else q) } := by
                simp [rentProperty, hf, hav, hlt, hdur, hnd]
              rw [h1]
              unfold Inv
              refine ⟨?_, ?_, ?_⟩
              · intro q hq
                simp only [List.mem_map] at hq
                rcases hq with ⟨q0, hq0, rfl⟩
                have := i1 q0 hq0
                by_cases h0 : (q0.pid == propId) = true
                · rw [if_pos h0]
                  simpa using this
                · rw [if_neg h0]
                  simpa using this
              · intro r hr2
                simp only [List.mem_append, List.mem_singleton] at hr2
                rcases hr2 with hr2 | rfl
                · have := i2 r hr2
                  simpa using this
                · have := i1 p hpmem
                  simp only
                  omega
              · intro r hr2 q hq hpid
                simp only [List.mem_map] at hq
                rcases hq with ⟨q0, hq0, rfl⟩
                by_cases h0 : (q0.pid == propId) = true
                · rw [if_pos h0]
                · rw [if_neg h0] at hpid ⊢
                  simp only [List.mem_append, List.mem_singleton] at hr2
                  rcases hr2 with hr2 | rfl
                  · exact i3 r hr2 q0 hq0 hpid
                  · exact absurd (beq_iff_eq.mpr hpid) h0
  | del s propId hr ih =>
    obtain ⟨i1, i2, i3⟩ := ih
    unfold deleteProperty
    split_ifs with h1 h2
    · exact ⟨i1, i2, i3⟩
    · exact ⟨i1, i2, i3⟩
    · unfold Inv
      refine ⟨?_, ?_, ?_⟩
      · intro p hp
        simp only at hp ⊢
        exact i1 p (List.mem_filter.mp hp).1
      · intro r hr2
        simp only at hr2 ⊢
        exact i2 r hr2
      · intro r hr2 p hp hpid
        simp only at hr2 hp
        exact i3 r hr2 p (List.mem_filter.mp hp).1 hpid
  | pay s cid pid amount paidOn f hr ih =>
    obtain ⟨i1, i2, i3⟩ := ih
    rcases hnd : next_due_date paidOn f with _ | nd
    · have h1 : (recordPayment s cid pid amount paidOn f).1 = s := by
        simp [recordPayment, hnd]
      rw [h1]
      exact ⟨i1, i2, i3⟩
    · have h1 : (recordPayment s cid pid amount paidOn f).1 =
          { s with payments := s.payments ++
              [⟨cid, pid, amount, paidOn, f, nd⟩] } := by
        simp [recordPayment, hnd]
      rw [h1]
      exact ⟨i1, i2, i3⟩

/-- C10: in every state reachable through the operations the program
    exposes, every property referenced by a recorded rental row has its
    availability flag cleared; no operation of the program, modelled by the
    Reachable relation, ever sets the flag back. -/
theorem C10_rented_property_never_reavailable (s : State) (h : Reachable s) :
    ∀ r ∈ s.rentals, ∀ p ∈ s.properties, p.pid = r.property_id → p.available = false :=
  (reachable_inv s h).2.2

/-- C10 witness: the invariant applied to the concrete reachable state where
    property 1 was added and then rented shows that its row has the
    availability flag cleared. -/
theorem C10_rented_property_never_reavailable_witness :
    PropertyR.available ⟨1, false, 100, RentPeriod.monthly⟩ = false :=
  C10_rented_property_never_reavailable _
    (Reachable.rent _ 1 ⟨2024, 1, 15⟩ ⟨2024, 3, 20⟩ PaymentMethod.cash Frequency.monthly
      (Reachable.add _ 100 RentPeriod.monthly Reachable.init))
    ⟨1, 1, ⟨2024, 1, 15⟩, ⟨2024, 3, 20⟩, 3, 300, PaymentMethod.cash, Frequency.monthly,
      ⟨2024, 2, 15⟩, Status.active⟩
    (by norm_num [rentProperty, addProperty, initState, duration_months,
      calculate_next_due_date, mkDate, Date.valid, daysInMonth, isLeapYear,
      Date.ltb, total_amount])
    ⟨1, false, 100, RentPeriod.monthly⟩
    (by norm_num [rentProperty, addProperty, initState, duration_months,
      calculate_next_due_date, mkDate, Date.valid, daysInMonth, isLeapYear,
      Date.ltb, total_amount])
    rfl

end Leasing
